import Mathlib

/-!
# Verification of the UDP tracker client (`lib/client/udp-tracker.js`)

A shallow embedding of the UDP BitTorrent-tracker client.  Byte buffers are
modelled as `List Nat` (each entry one byte), machine integers as `Nat`, and
the side effects of the event handlers (timer manipulation, socket closing,
events emitted on the owning client) as an explicit list of `Effect` values
returned together with the updated request state.
-/

namespace UdpTracker

/-! ## Byte-level helpers -/

/-- `buf.readUInt32BE(off)`: big-endian 32-bit read at `off`.
All reads in the source happen after a length guard, so out-of-range
positions (which would throw in Node) are mapped to byte `0`. -/
def word32 (msg : List Nat) (off : Nat) : Nat :=
  msg.getD off 0 * 16777216 + msg.getD (off + 1) 0 * 65536 +
    msg.getD (off + 2) 0 * 256 + msg.getD (off + 3) 0

/-- `common.toUInt32(n)`: 4-byte big-endian encoding of `n`. -/
def toUInt32 (n : Nat) : List Nat :=
  [n / 16777216 % 256, n / 65536 % 256, n / 256 % 256, n % 256]

/-- `toUInt16(n)`: 2-byte big-endian encoding of `n`
(`buf.writeUInt16BE(n, 0)`). -/
def toUInt16 (n : Nat) : List Nat :=
  [n / 256 % 256, n % 256]

/-- `new BN(n).toArray()` for positive `n` (stripped of the leading-`[0]`
special case handled in `bnToArray`): minimal big-endian byte string. -/
def natBytesBE (n : Nat) : List Nat :=
  if h : n = 0 then []
  else
    have : n / 256 < n := Nat.div_lt_self (Nat.pos_of_ne_zero h) (by omega)
    natBytesBE (n / 256) ++ [n % 256]

/-- `new BN(n).toArray()`: big-endian digits, `[0]` for zero. -/
def bnToArray (n : Nat) : List Nat :=
  if n = 0 then [0] else natBytesBE n

/-- `MAX_UINT` from the source. -/
def MAX_UINT : Nat := 4294967295

/-- `toUInt64(n)`: the 64-bit encoder.  Values above `MAX_UINT` go through
the arbitrary-precision path (`BN` digits left-padded with zeros to 8
bytes); otherwise two 32-bit halves are concatenated. -/
def toUInt64 (n : Nat) : List Nat :=
  if n > MAX_UINT then
    let bytes := bnToArray n
    List.replicate (8 - bytes.length) 0 ++ bytes
  else
    toUInt32 0 ++ toUInt32 n

/-- Reference big-endian encoding: `bytesBE k n` is the `k`-byte big-endian
representation of `n` (mod `256 ^ k`); used to state what a "k-byte
big-endian representation" means. -/
def bytesBE : Nat → Nat → List Nat
  | 0, _ => []
  | k + 1, n => bytesBE k (n / 256) ++ [n % 256]

/-- Lower-case hex digit. -/
def hexDigit (n : Nat) : Char :=
  if n < 10 then Char.ofNat (48 + n) else Char.ofNat (87 + n)

/-- Two-digit lower-case hex of one byte. -/
def byteHex (b : Nat) : String :=
  String.mk [hexDigit (b / 16 % 16), hexDigit (b % 16)]

/-- `buf.toString('hex')`. -/
def toHex (bs : List Nat) : String :=
  String.join (bs.map byteHex)

/-! ## UTF-8 decoding

Models `buf.toString()` (Node's UTF-8 decode): exact on well-formed UTF-8,
U+FFFD replacement on malformed input. -/

/-- U+FFFD, the replacement character. -/
def replChar : Char := Char.ofNat 65533

/-- Decode a UTF-8 byte string to characters; malformed or truncated
sequences become U+FFFD. -/
def utf8DecodeChars : List Nat → List Char
  | [] => []
  | b :: rest =>
    if b < 128 then Char.ofNat b :: utf8DecodeChars rest
    else if 194 ≤ b ∧ b < 224 then
      match rest with
      | c :: r =>
        if 128 ≤ c ∧ c < 192 then
          Char.ofNat ((b - 192) * 64 + (c - 128)) :: utf8DecodeChars r
        else replChar :: utf8DecodeChars (c :: r)
      | [] => [replChar]
    else if 224 ≤ b ∧ b < 240 then
      match rest with
      | c :: d :: r =>
        if (128 ≤ c ∧ c < 192) ∧ (128 ≤ d ∧ d < 192) ∧
            ¬(b = 224 ∧ c < 160) ∧ ¬(b = 237 ∧ 160 ≤ c) then
          Char.ofNat ((b - 224) * 4096 + (c - 128) * 64 + (d - 128)) ::
            utf8DecodeChars r
        else replChar :: utf8DecodeChars (c :: d :: r)
      | _ => [replChar]
    else if 240 ≤ b ∧ b < 245 then
      match rest with
      | c :: d :: e :: r =>
        if (128 ≤ c ∧ c < 192) ∧ (128 ≤ d ∧ d < 192) ∧ (128 ≤ e ∧ e < 192) ∧
            ¬(b = 240 ∧ c < 144) ∧ ¬(b = 244 ∧ 144 ≤ c) then
          Char.ofNat ((b - 240) * 262144 + (c - 128) * 4096 +
              (d - 128) * 64 + (e - 128)) :: utf8DecodeChars r
        else replChar :: utf8DecodeChars (c :: d :: e :: r)
      | _ => [replChar]
    else replChar :: utf8DecodeChars rest
termination_by bs => bs.length
decreasing_by all_goals simp_all [List.length_cons] <;> omega

/-- `buf.toString()`. -/
def utf8Decode (bs : List Nat) : String :=
  String.mk (utf8DecodeChars bs)

/-! ## Protocol constants and request options -/

/-- Modelled from the spec: `common.CONNECTION_ID`, the protocol magic
`0x0000041727101980` (8 bytes, big-endian); `common.js` itself is not among
the given sources, the spec's wire-format table fixes the value. -/
def CONNECTION_ID : List Nat := [0, 0, 4, 23, 39, 16, 25, 128]

/-- `common.ACTIONS.CONNECT`. -/
def ACTIONS_CONNECT : Nat := 0

/-- `common.ACTIONS.ANNOUNCE`. -/
def ACTIONS_ANNOUNCE : Nat := 1

/-- `common.ACTIONS.SCRAPE`. -/
def ACTIONS_SCRAPE : Nat := 2

/-- Modelled from the spec: `common.EVENTS[opts.event] || 0`, the event
enum (none=0 / completed=1 / started=2 / stopped=3). -/
def eventCode : Option String → Nat
  | some "completed" => 1
  | some "started" => 2
  | some "stopped" => 3
  | _ => 0

/-- `opts.infoHash`: absent, a single buffer, or an array of buffers. -/
inductive InfoHashOpt
  | none
  | single (h : List Nat)
  | hashes (hs : List (List Nat))
deriving DecidableEq

/-- The options record passed to `announce`/`scrape` (`_request`). -/
structure Opts where
  isScrape : Bool := false
  event : Option String := Option.none
  infoHash : InfoHashOpt := InfoHashOpt.none
  left : Option Nat := Option.none
  downloaded : Nat := 0
  uploaded : Nat := 0
  numwant : Nat := 0
deriving DecidableEq

/-- The mutable state captured by one `_request` closure, together with the
session flags it consults (`self.destroyed`, `self.maybeDestroyCleanup`) and
the identity values of the owning client.  `nextTxn` is the value the next
`genTransactionId()` call will return (4 random bytes). -/
structure St where
  announceUrl : String
  transactionId : List Nat
  nextTxn : List Nat
  timeoutActive : Bool
  socketOpen : Bool
  destroyed : Bool
  watcher : Bool
  opts : Opts
  clientInfoHash : String
  clientInfoHashBuf : List Nat
  clientPeerIdBuf : List Nat
  clientPort : Nat
deriving DecidableEq

/-- The observable side effects of the handlers: timer and socket
manipulation, active-set bookkeeping, datagram sends, and the events
emitted on the owning client. -/
inductive Effect
  | clearTimeout
  | removeFromActive
  | closeSocket
  | notifyDestroy
  | warning (msg : String)
  | update (announce : String) (complete incomplete : Nat)
  | peer (addr : String)
  | scrapeData (announce : String) (infoHash : Option String)
      (complete downloaded incomplete : Nat)
  | setIntervalMs (ms : Nat)
  | send (bytes : List Nat)
deriving DecidableEq

/-! ## The request state machine (`_request` and its inner functions) -/

/-- `cleanup()`: cancel the timeout if armed; if the socket is open, remove
this request from `self.cleanupFns`, detach and close the socket; finally
notify `self.maybeDestroyCleanup` when set. -/
def cleanup (st : St) : List Effect × St :=
  let es1 := if st.timeoutActive then [Effect.clearTimeout] else []
  let es2 := if st.socketOpen then [Effect.removeFromActive, Effect.closeSocket] else []
  let es3 := if st.watcher then [Effect.notifyDestroy] else []
  (es1 ++ es2 ++ es3, { st with timeoutActive := false, socketOpen := false })

/-- `onError(err)`: cleanup, then—unless the session is destroyed—emit the
error as a warning with the announce URL appended to the message. -/
def onError (st : St) (emsg : String) : List Effect × St :=
  let r := cleanup st
  if r.2.destroyed then r
  else (r.1 ++ [Effect.warning (emsg ++ " (" ++ st.announceUrl ++ ")")], r.2)

/-- The CONNECT request sent when `_request` starts:
`CONNECTION_ID ++ toUInt32(ACTIONS.CONNECT) ++ transactionId`. -/
def connectMessage (transactionId : List Nat) : List Nat :=
  CONNECTION_ID ++ toUInt32 ACTIONS_CONNECT ++ transactionId

/-- The ANNOUNCE request built by the inner `announce(connectionId, opts)`
(with `txn` the freshly generated transaction id). -/
def announceMessage (st : St) (connectionId txn : List Nat) : List Nat :=
  connectionId ++ toUInt32 ACTIONS_ANNOUNCE ++ txn ++
    st.clientInfoHashBuf ++ st.clientPeerIdBuf ++
    toUInt64 st.opts.downloaded ++
    (match st.opts.left with
      | some v => toUInt64 v
      | Option.none => List.replicate 8 255) ++
    toUInt64 st.opts.uploaded ++
    toUInt32 (eventCode st.opts.event) ++
    toUInt32 0 ++ toUInt32 0 ++
    toUInt32 st.opts.numwant ++
    toUInt16 st.clientPort

/-- The SCRAPE request built by the inner `scrape(connectionId)`.  (With an
explicitly empty hash array the JS would pass the array itself to
`Buffer.concat` and throw; that unreachable corner is modelled by the
client's default buffer.) -/
def scrapeMessage (st : St) (connectionId txn : List Nat) : List Nat :=
  let infoHash :=
    match st.opts.infoHash with
    | InfoHashOpt.hashes hs => if hs.length > 0 then hs.flatten else st.clientInfoHashBuf
    | InfoHashOpt.single h => h
    | InfoHashOpt.none => st.clientInfoHashBuf
  connectionId ++ toUInt32 ACTIONS_SCRAPE ++ txn ++ infoHash

/-- The hex info-hash list used by the scrape-reply branch:
`opts.infoHash.map(toString hex)` for a non-empty array, else the single
hash's hex (or the client's default hash when absent or empty). -/
def scrapeInfoHashes (opts : Opts) (clientInfoHash : String) : List String :=
  match opts.infoHash with
  | InfoHashOpt.hashes hs =>
      if hs.length > 0 then hs.map toHex else [clientInfoHash]
  | InfoHashOpt.single h =>
      [if toHex h = "" then clientInfoHash else toHex h]
  | InfoHashOpt.none => [clientInfoHash]

/-- Modelled from the spec: the external `compact2string` IPv4 chunk
decoder — each 6-byte unit is `a.b.c.d` plus a 2-byte big-endian port. -/
def compactChunks : List Nat → List String
  | a :: b :: c :: d :: e :: f :: rest =>
      (toString a ++ "." ++ toString b ++ "." ++ toString c ++ "." ++ toString d
        ++ ":" ++ toString (e * 256 + f)) :: compactChunks rest
  | _ => []

/-- Modelled from the spec: `compact2string.multi(buf)` — decodes the
compact peer list, throwing when the length is not a multiple of the 6-byte
unit size. -/
def compactMulti (tail : List Nat) : Except String (List String) :=
  if tail.length % 6 = 0 then Except.ok (compactChunks tail)
  else Except.error ("Invalid compact buffer length: " ++ toString tail.length)

/-- Action 0 (handshake): on a short reply fail with `invalid udp
handshake`; otherwise regenerate the transaction id and send the announce
or scrape request with the received connection id (`msg.slice(8, 16)`). -/
def handleConnect (st : St) (msg : List Nat) : List Effect × St :=
  if msg.length < 16 then onError st "invalid udp handshake"
  else
    let connId := (msg.drop 8).take 8
    let st1 := { st with transactionId := st.nextTxn }
    if st.opts.isScrape then
      ([Effect.send (scrapeMessage st connId st.nextTxn)], st1)
    else
      ([Effect.send (announceMessage st connId st.nextTxn)], st1)

/-- Action 1 (announce reply): cleanup; bail out silently if destroyed;
reject replies shorter than 20 bytes; reschedule the interval timer when
the interval field is nonzero; emit `update`; then decode the compact peer
tail, emitting a bare warning on failure or one `peer` event per address. -/
def handleAnnounceReply (st : St) (msg : List Nat) : List Effect × St :=
  let r := cleanup st
  if r.2.destroyed then r
  else if msg.length < 20 then
    let r2 := onError r.2 "invalid announce message"
    (r.1 ++ r2.1, r2.2)
  else
    let interval := word32 msg 8
    let esInt := if interval ≠ 0 then [Effect.setIntervalMs (interval * 1000)] else []
    let esUpd := [Effect.update st.announceUrl (word32 msg 16) (word32 msg 12)]
    match compactMulti (msg.drop 20) with
    | Except.error e => (r.1 ++ esInt ++ esUpd ++ [Effect.warning e], r.2)
    | Except.ok addrs => (r.1 ++ esInt ++ esUpd ++ addrs.map Effect.peer, r.2)

/-- Action 2 (scrape reply): cleanup; bail out silently if destroyed;
reject replies shorter than 20 bytes or with `(length - 8) % 12 ≠ 0`; else
emit one `scrape` event per 12-byte record, paired positionally with the
requested hashes. -/
def handleScrapeReply (st : St) (msg : List Nat) : List Effect × St :=
  let r := cleanup st
  if r.2.destroyed then r
  else if msg.length < 20 ∨ (msg.length - 8) % 12 ≠ 0 then
    let r2 := onError r.2 "invalid scrape message"
    (r.1 ++ r2.1, r2.2)
  else
    let infoHashes := scrapeInfoHashes st.opts st.clientInfoHash
    let evs := (List.range ((msg.length - 8) / 12)).map fun i =>
      Effect.scrapeData st.announceUrl (infoHashes.get? i)
        (word32 msg (8 + i * 12)) (word32 msg (12 + i * 12)) (word32 msg (16 + i * 12))
    (r.1 ++ evs, r.2)

/-- Action 3 (error reply): cleanup; bail out silently if destroyed; the
in-branch length guard, then emit the remaining bytes, UTF-8 decoded, as a
warning. -/
def handleErrorReply (st : St) (msg : List Nat) : List Effect × St :=
  let r := cleanup st
  if r.2.destroyed then r
  else if msg.length < 8 then
    let r2 := onError r.2 "invalid error message"
    (r.1 ++ r2.1, r2.2)
  else (r.1 ++ [Effect.warning (utf8Decode (msg.drop 8))], r.2)

/-- `onSocketMessage(msg)`: reject short datagrams and transaction-id
mismatches through the generic error path, then dispatch on the action. -/
def onSocketMessage (st : St) (msg : List Nat) : List Effect × St :=
  if msg.length < 8 ∨ word32 msg 4 ≠ word32 st.transactionId 0 then
    onError st "tracker sent invalid transaction id"
  else
    let action := word32 msg 0
    if action = 0 then handleConnect st msg
    else if action = 1 then handleAnnounceReply st msg
    else if action = 2 then handleScrapeReply st msg
    else if action = 3 then handleErrorReply st msg
    else onError st "tracker sent invalid action"

/-- `String(opts.event)` as it appears in the timeout message (`undefined`
when no event was given). -/
def eventName : Option String → String
  | some s => s
  | Option.none => "undefined"

/-- The timeout callback of `_request`: a `stopped` event-announce is
cleaned up silently, every other request goes through `onError` with the
timed-out message. -/
def onTimeout (st : St) : List Effect × St :=
  if st.opts.event = some "stopped" then cleanup st
  else onError st ("tracker request timed out (" ++ eventName st.opts.event ++ ")")

/-! ## The session lifecycle (`destroy` and the cleanup coordination)

The session-level view of `UDPTracker`: `active` counts `self.cleanupFns`
(the in-flight requests), `intervalArmed` the periodic re-announce timer,
`graceArmed` the `DESTROY_TIMEOUT` grace timer of `destroy`, `watcher`
whether `self.maybeDestroyCleanup` is set, `closed` how many request
transports have been closed, and `cbCalls` the arguments of the completion
callback invocations so far (the source only ever calls `cb(null)`,
recorded as `Option.none`). -/

structure Session where
  destroyed : Bool
  active : Nat
  intervalArmed : Bool
  graceArmed : Bool
  watcher : Bool
  closed : Nat
  cbCalls : List (Option String)
deriving DecidableEq

/-- `destroyCleanup()`: clear the grace timer, unset
`maybeDestroyCleanup`, run every remaining request's `cleanup` (closing
its transport), empty `cleanupFns`, and call `cb(null)`. -/
def destroyCleanup (s : Session) : Session :=
  { s with graceArmed := false, watcher := false,
           closed := s.closed + s.active, active := 0,
           cbCalls := s.cbCalls ++ [Option.none] }

/-- `destroy(cb)`: on an already-destroyed session just call `cb(null)`;
otherwise mark destroyed, clear the periodic interval timer, and either
complete synchronously via `destroyCleanup` (no pending requests) or arm
the grace timer and set `maybeDestroyCleanup`. -/
def destroy (s : Session) : Session :=
  if s.destroyed then { s with cbCalls := s.cbCalls ++ [Option.none] }
  else
    let s1 := { s with destroyed := true, intervalArmed := false }
    if s1.active = 0 then destroyCleanup s1
    else { s1 with graceArmed := true, watcher := true }

/-- The two asynchronous events that can drive a destroyed session:
a pending request completing (its `cleanup` runs, which removes it from
`cleanupFns`, closes its transport and pokes `maybeDestroyCleanup`), and
the grace timer firing. -/
inductive SEvent
  | reqDone
  | grace
deriving DecidableEq

/-- One asynchronous step of the session. -/
def sessionStep (s : Session) (e : SEvent) : Session :=
  match e with
  | SEvent.reqDone =>
      if s.active = 0 then s
      else
        let s1 := { s with active := s.active - 1, closed := s.closed + 1 }
        if s1.watcher ∧ s1.active = 0 then destroyCleanup s1 else s1
  | SEvent.grace => if s.graceArmed then destroyCleanup s else s

/-- Run a sequence of asynchronous events. -/
def sessionRun (s : Session) : List SEvent → Session
  | [] => s
  | e :: es => sessionRun (sessionStep s e) es

/-! ## Concrete request states used in the witnesses -/

/-- A live request awaiting its first reply. -/
def demoSt : St :=
  { announceUrl := "udp://tracker.example.com:1337/announce"
    transactionId := [1, 2, 3, 4]
    nextTxn := [5, 6, 7, 8]
    timeoutActive := true
    socketOpen := true
    destroyed := false
    watcher := false
    opts := {}
    clientInfoHash := "aaaaaaaaaaaaaaaaaaaaaaaaaaaaaaaaaaaaaaaa"
    clientInfoHashBuf := List.replicate 20 170
    clientPeerIdBuf := List.replicate 20 45
    clientPort := 6881 }

end UdpTracker

namespace UdpTracker

/-! ## Claim theorems -/

/-- **C1.** An inbound datagram shorter than 8 bytes, or whose 32-bit word
at offset 4 differs from the request's current transaction id, makes the
request emit exactly one `tracker sent invalid transaction id` warning and
perform full cleanup — timeout cancelled, transport closed, request
removed from the session's active set: the bad datagram aborts the
request. -/
theorem invalid_transaction_aborts (st : St) (msg : List Nat)
    (hdest : st.destroyed = false) (ht : st.timeoutActive = true)
    (hs : st.socketOpen = true) (hw : st.watcher = false)
    (hbad : msg.length < 8 ∨ word32 msg 4 ≠ word32 st.transactionId 0) :
    onSocketMessage st msg =
      ([Effect.clearTimeout, Effect.removeFromActive, Effect.closeSocket,
        Effect.warning ("tracker sent invalid transaction id (" ++ st.announceUrl ++ ")")],
       { st with timeoutActive := false, socketOpen := false }) := by
  rw [onSocketMessage, if_pos hbad]
  simp [onError, cleanup, hdest, ht, hs, hw]

/-- Witness for C1: a 8-byte datagram with a wrong transaction id aborts
the demo request. -/
theorem invalid_transaction_aborts_witness :
    onSocketMessage demoSt [0, 0, 0, 1, 9, 9, 9, 9] =
      ([Effect.clearTimeout, Effect.removeFromActive, Effect.closeSocket,
        Effect.warning ("tracker sent invalid transaction id (" ++ demoSt.announceUrl ++ ")")],
       { demoSt with timeoutActive := false, socketOpen := false }) :=
  invalid_transaction_aborts demoSt [0, 0, 0, 1, 9, 9, 9, 9] rfl rfl rfl rfl
    (Or.inr (by decide))

/-- **C4.** A connect reply (action 0, matching transaction id) shorter
than 16 bytes is reported as an `invalid udp handshake` warning, the
request is cleaned up, and no follow-up announce/scrape datagram is
sent. -/
theorem short_connect_reply_aborts (st : St) (msg : List Nat)
    (hdest : st.destroyed = false) (ht : st.timeoutActive = true)
    (hs : st.socketOpen = true) (hw : st.watcher = false)
    (hlen : 8 ≤ msg.length) (hact : word32 msg 0 = 0)
    (htx : word32 msg 4 = word32 st.transactionId 0)
    (hshort : msg.length < 16) :
    onSocketMessage st msg =
      ([Effect.clearTimeout, Effect.removeFromActive, Effect.closeSocket,
        Effect.warning ("invalid udp handshake (" ++ st.announceUrl ++ ")")],
       { st with timeoutActive := false, socketOpen := false }) ∧
    ∀ b, Effect.send b ∉ (onSocketMessage st msg).1 := by
  have hnot : ¬(msg.length < 8 ∨ word32 msg 4 ≠ word32 st.transactionId 0) := by
    push_neg
    exact ⟨by omega, htx⟩
  have hmain : onSocketMessage st msg =
      ([Effect.clearTimeout, Effect.removeFromActive, Effect.closeSocket,
        Effect.warning ("invalid udp handshake (" ++ st.announceUrl ++ ")")],
       { st with timeoutActive := false, socketOpen := false }) := by
    rw [onSocketMessage, if_neg hnot]
    simp [hact, handleConnect, hshort, onError, cleanup, hdest, ht, hs, hw]
  refine ⟨hmain, fun b hb => ?_⟩
  rw [hmain] at hb
  simp at hb

/-- Witness for C4: a 12-byte connect reply with the right transaction id
aborts the demo request without sending anything. -/
theorem short_connect_reply_aborts_witness :
    onSocketMessage demoSt [0, 0, 0, 0, 1, 2, 3, 4, 9, 9, 9, 9] =
      ([Effect.clearTimeout, Effect.removeFromActive, Effect.closeSocket,
        Effect.warning ("invalid udp handshake (" ++ demoSt.announceUrl ++ ")")],
       { demoSt with timeoutActive := false, socketOpen := false }) ∧
    ∀ b, Effect.send b ∉ (onSocketMessage demoSt [0, 0, 0, 0, 1, 2, 3, 4, 9, 9, 9, 9]).1 :=
  short_connect_reply_aborts demoSt [0, 0, 0, 0, 1, 2, 3, 4, 9, 9, 9, 9]
    rfl rfl rfl rfl (by decide) (by decide) (by decide) (by decide)

/-- **C7.** When the request timeout fires, a `stopped` event-announce is
cleaned up silently (no warning); every other request emits exactly one
`tracker request timed out` warning and is cleaned up. -/
theorem timeout_stopped_suppressed (st : St)
    (hdest : st.destroyed = false) (ht : st.timeoutActive = true)
    (hs : st.socketOpen = true) (hw : st.watcher = false) :
    (st.opts.event = some "stopped" →
      onTimeout st =
        ([Effect.clearTimeout, Effect.removeFromActive, Effect.closeSocket],
         { st with timeoutActive := false, socketOpen := false })) ∧
    (st.opts.event ≠ some "stopped" →
      onTimeout st =
        ([Effect.clearTimeout, Effect.removeFromActive, Effect.closeSocket,
          Effect.warning ("tracker request timed out (" ++ eventName st.opts.event ++ ")" ++
            " (" ++ st.announceUrl ++ ")")],
         { st with timeoutActive := false, socketOpen := false })) := by
  constructor
  · intro hev
    rw [onTimeout, if_pos hev]
    simp [cleanup, ht, hs, hw]
  · intro hev
    rw [onTimeout, if_neg hev]
    simp [onError, cleanup, hdest, ht, hs, hw]

/-- Witness for C7: a `stopped` request times out silently, a `started`
request times out with a warning. -/
theorem timeout_stopped_suppressed_witness :
    onTimeout { demoSt with opts := { event := some "stopped" } } =
      ([Effect.clearTimeout, Effect.removeFromActive, Effect.closeSocket],
       { { demoSt with opts := { event := some "stopped" } } with
          timeoutActive := false, socketOpen := false }) ∧
    onTimeout { demoSt with opts := { event := some "started" } } =
      ([Effect.clearTimeout, Effect.removeFromActive, Effect.closeSocket,
        Effect.warning ("tracker request timed out (" ++
          eventName ({ demoSt with opts := { event := some "started" } }).opts.event ++ ")" ++
          " (" ++ ({ demoSt with opts := { event := some "started" } }).announceUrl ++ ")")],
       { { demoSt with opts := { event := some "started" } } with
          timeoutActive := false, socketOpen := false }) :=
  ⟨(timeout_stopped_suppressed { demoSt with opts := { event := some "stopped" } }
      rfl rfl rfl rfl).1 rfl,
   (timeout_stopped_suppressed { demoSt with opts := { event := some "started" } }
      rfl rfl rfl rfl).2 (by decide)⟩

/-- **C2.** A scrape reply (action 2, matching transaction id) of length
`8 + 12·N` with `N ≥ 1` emits exactly `N` scrape events, the `i`-th
carrying `complete`/`downloaded`/`incomplete` from the big-endian words at
offsets `8+12·i`/`12+12·i`/`16+12·i` and the `i`-th hex hash of the
request's hash list (`scrapeInfoHashes`: the explicit list in order, the
single given hash, or the client's default hash); a reply shorter than 20
bytes or with `(length-8) % 12 ≠ 0` yields one `invalid scrape message`
warning and no scrape events. -/
theorem scrape_reply_events (st : St) (msg : List Nat) (n : Nat)
    (hdest : st.destroyed = false) (ht : st.timeoutActive = true)
    (hs : st.socketOpen = true) (hw : st.watcher = false)
    (hact : word32 msg 0 = 2)
    (htx : word32 msg 4 = word32 st.transactionId 0) :
    (msg.length = 8 + 12 * n → 1 ≤ n →
      onSocketMessage st msg =
        ([Effect.clearTimeout, Effect.removeFromActive, Effect.closeSocket] ++
          (List.range n).map (fun i =>
            Effect.scrapeData st.announceUrl
              ((scrapeInfoHashes st.opts st.clientInfoHash).get? i)
              (word32 msg (8 + i * 12)) (word32 msg (12 + i * 12))
              (word32 msg (16 + i * 12))),
         { st with timeoutActive := false, socketOpen := false })) ∧
    (8 ≤ msg.length → (msg.length < 20 ∨ (msg.length - 8) % 12 ≠ 0) →
      onSocketMessage st msg =
        ([Effect.clearTimeout, Effect.removeFromActive, Effect.closeSocket,
          Effect.warning ("invalid scrape message (" ++ st.announceUrl ++ ")")],
         { st with timeoutActive := false, socketOpen := false })) := by
  constructor
  · intro hlen hn
    have hnot : ¬(msg.length < 8 ∨ word32 msg 4 ≠ word32 st.transactionId 0) := by
      push_neg
      exact ⟨by omega, htx⟩
    have hok : ¬(msg.length < 20 ∨ (msg.length - 8) % 12 ≠ 0) := by
      push_neg
      constructor <;> omega
    have hdiv : (msg.length - 8) / 12 = n := by omega
    rw [onSocketMessage, if_neg hnot]
    simp only [hact]
    norm_num [handleScrapeReply, hok, cleanup, hdest, ht, hs, hw, hdiv]
  · intro hge hbad
    have hnot : ¬(msg.length < 8 ∨ word32 msg 4 ≠ word32 st.transactionId 0) := by
      push_neg
      exact ⟨by omega, htx⟩
    rw [onSocketMessage, if_neg hnot]
    simp only [hact]
    simp [handleScrapeReply, hbad, onError, cleanup, hdest, ht, hs, hw]

/-- The options of a scrape request for two explicit info-hashes
(shortened to 2 bytes each for readability of the witness). -/
def twoHashOpts : Opts :=
  { isScrape := true, infoHash := InfoHashOpt.hashes [[17, 34], [51, 68]] }

/-- Witness for C2: a 32-byte scrape reply for a two-hash request yields
two positionally matched scrape events; a 21-byte reply yields only the
`invalid scrape message` warning. -/
theorem scrape_reply_events_witness :
    (onSocketMessage { demoSt with opts := twoHashOpts }
        ([0, 0, 0, 2, 1, 2, 3, 4] ++
          [0, 0, 0, 1, 0, 0, 0, 2, 0, 0, 0, 3] ++
          [0, 0, 0, 4, 0, 0, 0, 5, 0, 0, 0, 6]) =
      ([Effect.clearTimeout, Effect.removeFromActive, Effect.closeSocket,
        Effect.scrapeData demoSt.announceUrl (some "1122") 1 2 3,
        Effect.scrapeData demoSt.announceUrl (some "3344") 4 5 6],
       { { demoSt with opts := twoHashOpts } with
          timeoutActive := false, socketOpen := false })) ∧
    onSocketMessage demoSt
        [0, 0, 0, 2, 1, 2, 3, 4, 0, 0, 0, 1, 0, 0, 0, 2, 0, 0, 0, 3, 0] =
      ([Effect.clearTimeout, Effect.removeFromActive, Effect.closeSocket,
        Effect.warning ("invalid scrape message (" ++ demoSt.announceUrl ++ ")")],
       { demoSt with timeoutActive := false, socketOpen := false }) := by
  constructor
  · have h := (scrape_reply_events { demoSt with opts := twoHashOpts }
      ([0, 0, 0, 2, 1, 2, 3, 4] ++
        [0, 0, 0, 1, 0, 0, 0, 2, 0, 0, 0, 3] ++
        [0, 0, 0, 4, 0, 0, 0, 5, 0, 0, 0, 6]) 2
      rfl rfl rfl rfl (by decide) (by decide)).1 (by decide) (by decide)
    rw [h]
    decide
  · exact (scrape_reply_events demoSt
      [0, 0, 0, 2, 1, 2, 3, 4, 0, 0, 0, 1, 0, 0, 0, 2, 0, 0, 0, 3, 0] 0
      rfl rfl rfl rfl (by decide) (by decide)).2 (by decide) (by decide)

/-- **C3.** An announce reply (action 1, matching transaction id) of
length ≥ 20 with a nonzero big-endian interval at offset 8 reschedules the
periodic timer to `interval * 1000` ms and emits exactly one `update`
event carrying the announce URL, `complete` from offset 16 and
`incomplete` from offset 12 (followed only by peer events or a peer-decode
warning); a reply shorter than 20 bytes yields one `invalid announce
message` warning and no update event. -/
theorem announce_reply_update (st : St) (msg : List Nat)
    (hdest : st.destroyed = false) (ht : st.timeoutActive = true)
    (hs : st.socketOpen = true) (hw : st.watcher = false)
    (hact : word32 msg 0 = 1)
    (htx : word32 msg 4 = word32 st.transactionId 0) :
    (20 ≤ msg.length → word32 msg 8 ≠ 0 →
      ∃ tl, onSocketMessage st msg =
        ([Effect.clearTimeout, Effect.removeFromActive, Effect.closeSocket,
          Effect.setIntervalMs (word32 msg 8 * 1000),
          Effect.update st.announceUrl (word32 msg 16) (word32 msg 12)] ++ tl,
         { st with timeoutActive := false, socketOpen := false }) ∧
        ∀ e ∈ tl, (∃ a, e = Effect.peer a) ∨ ∃ w, e = Effect.warning w) ∧
    (8 ≤ msg.length → msg.length < 20 →
      onSocketMessage st msg =
        ([Effect.clearTimeout, Effect.removeFromActive, Effect.closeSocket,
          Effect.warning ("invalid announce message (" ++ st.announceUrl ++ ")")],
         { st with timeoutActive := false, socketOpen := false })) := by
  constructor
  · intro hlen hint
    have hnot : ¬(msg.length < 8 ∨ word32 msg 4 ≠ word32 st.transactionId 0) := by
      push_neg
      exact ⟨by omega, htx⟩
    have hnot20 : ¬(msg.length < 20) := by omega
    rw [onSocketMessage, if_neg hnot]
    simp only [hact]
    cases hcm : compactMulti (msg.drop 20) with
    | error e =>
        refine ⟨[Effect.warning e], ?_, ?_⟩
        · simp [handleAnnounceReply, hnot20, cleanup, hdest, ht, hs, hw, hint, hcm]
        · intro x hx
          simp at hx
          exact Or.inr ⟨e, hx⟩
    | ok addrs =>
        refine ⟨addrs.map Effect.peer, ?_, ?_⟩
        · simp [handleAnnounceReply, hnot20, cleanup, hdest, ht, hs, hw, hint, hcm]
        · intro x hx
          simp [List.mem_map] at hx
          obtain ⟨a, _, rfl⟩ := hx
          exact Or.inl ⟨a, rfl⟩
  · intro hge hshort
    have hnot : ¬(msg.length < 8 ∨ word32 msg 4 ≠ word32 st.transactionId 0) := by
      push_neg
      exact ⟨by omega, htx⟩
    rw [onSocketMessage, if_neg hnot]
    simp only [hact]
    simp [handleAnnounceReply, hshort, onError, cleanup, hdest, ht, hs, hw]

/-- Witness for C3: a 26-byte announce reply with interval 1800, one peer
`10.0.0.1:80`, complete 9 and incomplete 7 reschedules the timer to
1800000 ms and emits the update; an 18-byte reply only warns. -/
theorem announce_reply_update_witness :
    (∃ tl, onSocketMessage demoSt
        ([0, 0, 0, 1, 1, 2, 3, 4, 0, 0, 7, 8, 0, 0, 0, 7, 0, 0, 0, 9] ++
          [10, 0, 0, 1, 0, 80]) =
      ([Effect.clearTimeout, Effect.removeFromActive, Effect.closeSocket,
        Effect.setIntervalMs (1800 * 1000),
        Effect.update demoSt.announceUrl 9 7] ++ tl,
       { demoSt with timeoutActive := false, socketOpen := false }) ∧
      ∀ e ∈ tl, (∃ a, e = Effect.peer a) ∨ ∃ w, e = Effect.warning w) ∧
    onSocketMessage demoSt
        [0, 0, 0, 1, 1, 2, 3, 4, 0, 0, 7, 8, 0, 0, 0, 7, 0, 0] =
      ([Effect.clearTimeout, Effect.removeFromActive, Effect.closeSocket,
        Effect.warning ("invalid announce message (" ++ demoSt.announceUrl ++ ")")],
       { demoSt with timeoutActive := false, socketOpen := false }) := by
  constructor
  · have h := (announce_reply_update demoSt
      ([0, 0, 0, 1, 1, 2, 3, 4, 0, 0, 7, 8, 0, 0, 0, 7, 0, 0, 0, 9] ++
        [10, 0, 0, 1, 0, 80])
      rfl rfl rfl rfl (by decide) (by decide)).1 (by decide) (by decide)
    obtain ⟨tl, heq, htl⟩ := h
    refine ⟨tl, ?_, htl⟩
    rw [heq]
    norm_num
    decide
  · exact (announce_reply_update demoSt
      [0, 0, 0, 1, 1, 2, 3, 4, 0, 0, 7, 8, 0, 0, 0, 7, 0, 0]
      rfl rfl rfl rfl (by decide) (by decide)).2 (by decide) (by decide)

/-- **C10.** An announce reply of length ≥ 20 (matching transaction id)
whose compact peer tail has a length that is not a multiple of the 6-byte
unit emits the interval-reschedule (when nonzero) and the update event
*before* the peer-list failure warning, and emits no peer events: the
peer-list error suppresses only the peer events. -/
theorem announce_bad_peer_list_keeps_update (st : St) (msg : List Nat)
    (hdest : st.destroyed = false) (ht : st.timeoutActive = true)
    (hs : st.socketOpen = true) (hw : st.watcher = false)
    (hact : word32 msg 0 = 1)
    (htx : word32 msg 4 = word32 st.transactionId 0)
    (hlen : 20 ≤ msg.length) (hint : word32 msg 8 ≠ 0)
    (hbadtail : (msg.length - 20) % 6 ≠ 0) :
    onSocketMessage st msg =
      ([Effect.clearTimeout, Effect.removeFromActive, Effect.closeSocket,
        Effect.setIntervalMs (word32 msg 8 * 1000),
        Effect.update st.announceUrl (word32 msg 16) (word32 msg 12),
        Effect.warning ("Invalid compact buffer length: " ++
          toString (msg.length - 20))],
       { st with timeoutActive := false, socketOpen := false }) ∧
    ∀ a, Effect.peer a ∉ (onSocketMessage st msg).1 := by
  have hnot : ¬(msg.length < 8 ∨ word32 msg 4 ≠ word32 st.transactionId 0) := by
    push_neg
    exact ⟨by omega, htx⟩
  have hnot20 : ¬(msg.length < 20) := by omega
  have htail : (msg.drop 20).length % 6 ≠ 0 := by
    rw [List.length_drop]
    exact hbadtail
  have hcm : compactMulti (msg.drop 20) =
      Except.error ("Invalid compact buffer length: " ++ toString (msg.length - 20)) := by
    rw [compactMulti, if_neg htail, List.length_drop]
  have hmain : onSocketMessage st msg =
      ([Effect.clearTimeout, Effect.removeFromActive, Effect.closeSocket,
        Effect.setIntervalMs (word32 msg 8 * 1000),
        Effect.update st.announceUrl (word32 msg 16) (word32 msg 12),
        Effect.warning ("Invalid compact buffer length: " ++
          toString (msg.length - 20))],
       { st with timeoutActive := false, socketOpen := false }) := by
    rw [onSocketMessage, if_neg hnot]
    simp only [hact]
    simp [handleAnnounceReply, hnot20, cleanup, hdest, ht, hs, hw, hint, hcm]
  refine ⟨hmain, fun a ha => ?_⟩
  rw [hmain] at ha
  simp at ha

/-- Witness for C10: a 23-byte announce reply (3 trailing peer bytes)
keeps the interval and update effects and ends in the peer-list
warning. -/
theorem announce_bad_peer_list_keeps_update_witness :
    onSocketMessage demoSt
        [0, 0, 0, 1, 1, 2, 3, 4, 0, 0, 7, 8, 0, 0, 0, 7, 0, 0, 0, 9, 10, 0, 0] =
      ([Effect.clearTimeout, Effect.removeFromActive, Effect.closeSocket,
        Effect.setIntervalMs (word32 [0, 0, 0, 1, 1, 2, 3, 4, 0, 0, 7, 8, 0, 0, 0, 7, 0, 0, 0, 9, 10, 0, 0] 8 * 1000),
        Effect.update demoSt.announceUrl 9 7,
        Effect.warning ("Invalid compact buffer length: " ++ toString 3)],
       { demoSt with timeoutActive := false, socketOpen := false }) ∧
    ∀ a, Effect.peer a ∉
      (onSocketMessage demoSt
        [0, 0, 0, 1, 1, 2, 3, 4, 0, 0, 7, 8, 0, 0, 0, 7, 0, 0, 0, 9, 10, 0, 0]).1 :=
  announce_bad_peer_list_keeps_update demoSt
    [0, 0, 0, 1, 1, 2, 3, 4, 0, 0, 7, 8, 0, 0, 0, 7, 0, 0, 0, 9, 10, 0, 0]
    rfl rfl rfl rfl (by decide) (by decide) (by decide) (by decide) (by decide)

/-- **C9.** An error reply (action 3, matching transaction id) emits
exactly one warning carrying the UTF-8 decoding of the bytes from offset 8
onward and no update, peer, or scrape events; moreover the branch-local
`msg.length < 8` guard is unreachable: the top-level dispatch sends every
datagram shorter than 8 bytes down the invalid-transaction path, and on
all remaining inputs (length ≥ 8) the error branch always takes its normal
path. -/
theorem error_reply_warning (st : St) (msg : List Nat)
    (hdest : st.destroyed = false) (ht : st.timeoutActive = true)
    (hs : st.socketOpen = true) (hw : st.watcher = false)
    (hlen : 8 ≤ msg.length) (hact : word32 msg 0 = 3)
    (htx : word32 msg 4 = word32 st.transactionId 0) :
    onSocketMessage st msg =
      ([Effect.clearTimeout, Effect.removeFromActive, Effect.closeSocket,
        Effect.warning (utf8Decode (msg.drop 8))],
       { st with timeoutActive := false, socketOpen := false }) ∧
    (∀ st' : St, ∀ msg' : List Nat, msg'.length < 8 →
      onSocketMessage st' msg' = onError st' "tracker sent invalid transaction id") ∧
    (∀ st' : St, ∀ msg' : List Nat, 8 ≤ msg'.length →
      handleErrorReply st' msg' =
        (if st'.destroyed then cleanup st'
         else ((cleanup st').1 ++ [Effect.warning (utf8Decode (msg'.drop 8))],
               (cleanup st').2))) := by
  refine ⟨?_, ?_, ?_⟩
  · have hnot : ¬(msg.length < 8 ∨ word32 msg 4 ≠ word32 st.transactionId 0) := by
      push_neg
      exact ⟨by omega, htx⟩
    have hnot8 : ¬(msg.length < 8) := by omega
    rw [onSocketMessage, if_neg hnot]
    simp only [hact]
    simp [handleErrorReply, hnot8, cleanup, hdest, ht, hs, hw]
  · intro st' msg' hshort
    rw [onSocketMessage, if_pos (Or.inl hshort)]
  · intro st' msg' hge
    have hnot8 : ¬(msg'.length < 8) := by omega
    rw [handleErrorReply]
    by_cases hd : (cleanup st').2.destroyed
    · simp [hd, cleanup] at *
      simp [hd, cleanup]
    · have hd' : st'.destroyed = false := by
        simpa [cleanup] using hd
      simp [cleanup] at hd
      simp [hnot8, hd, hd', cleanup]

/-- Witness for C9: an error reply carrying the UTF-8 text `fail` emits
exactly that warning. -/
theorem error_reply_warning_witness :
    onSocketMessage demoSt [0, 0, 0, 3, 1, 2, 3, 4, 102, 97, 105, 108] =
      ([Effect.clearTimeout, Effect.removeFromActive, Effect.closeSocket,
        Effect.warning (utf8Decode [102, 97, 105, 108])],
       { demoSt with timeoutActive := false, socketOpen := false }) :=
  ((error_reply_warning demoSt [0, 0, 0, 3, 1, 2, 3, 4, 102, 97, 105, 108]
      rfl rfl rfl rfl (by decide) (by decide) (by decide)).1).trans (by norm_num)

/-- **C5 (counterexample).** The CONNECT message is not a 16-byte magic
constant followed by the 4-byte action and the 4-byte transaction id: that
layout would be 24 bytes, while the message built for the transaction id
`[1, 2, 3, 4]` is 16 bytes in total. -/
theorem connect_message_not_16_byte_magic :
    ¬ ∃ magic : List Nat, magic.length = 16 ∧
      connectMessage [1, 2, 3, 4] = magic ++ toUInt32 0 ++ [1, 2, 3, 4] := by
  rintro ⟨m, hm, he⟩
  have hlen := congrArg List.length he
  simp [connectMessage, CONNECTION_ID, toUInt32, hm] at hlen

/-- **C5 (amended).** The CONNECT message sent when a request starts is
the fixed 8-byte magic connection-id constant `0x0000041727101980`,
followed by action 0 as a 4-byte big-endian integer, followed by the
4-byte transaction id — 16 bytes in total. -/
theorem connect_message_magic8 (txn : List Nat) (h4 : txn.length = 4) :
    connectMessage txn =
      [0, 0, 4, 23, 39, 16, 25, 128] ++ toUInt32 0 ++ txn ∧
    CONNECTION_ID.length = 8 ∧ (connectMessage txn).length = 16 := by
  refine ⟨rfl, rfl, ?_⟩
  simp [connectMessage, CONNECTION_ID, toUInt32, h4]

/-- Witness for C5 (amended): the CONNECT message for transaction id
`[1, 2, 3, 4]`. -/
theorem connect_message_magic8_witness :
    connectMessage [1, 2, 3, 4] =
      [0, 0, 4, 23, 39, 16, 25, 128] ++ toUInt32 0 ++ [1, 2, 3, 4] ∧
    CONNECTION_ID.length = 8 ∧ (connectMessage [1, 2, 3, 4]).length = 16 :=
  connect_message_magic8 [1, 2, 3, 4] rfl

/-! ### Helper lemmas about the big-endian encoders (used by C6) -/

theorem bytesBE_length (k : Nat) : ∀ n, (bytesBE k n).length = k := by
  induction k with
  | zero => intro n; rfl
  | succ k ih => intro n; simp [bytesBE, ih]

theorem bytesBE_zero (k : Nat) : bytesBE k 0 = List.replicate k 0 := by
  induction k with
  | zero => rfl
  | succ k ih => simp [bytesBE, ih, List.replicate_succ']

theorem natBytesBE_length_le (k : Nat) :
    ∀ n, n < 256 ^ k → (natBytesBE n).length ≤ k := by
  induction k with
  | zero =>
      intro n hn
      have h0 : n = 0 := by omega
      subst h0
      simp [natBytesBE]
  | succ k ih =>
      intro n hn
      rw [natBytesBE]
      by_cases h0 : n = 0
      · simp [h0]
      · rw [dif_neg h0]
        have hlt : n / 256 < 256 ^ k := by
          rw [Nat.div_lt_iff_lt_mul (by norm_num)]
          calc n < 256 ^ (k + 1) := hn
            _ = 256 ^ k * 256 := by ring
        have := ih (n / 256) hlt
        simp
        omega

theorem replicate_natBytesBE_eq_bytesBE (k : Nat) :
    ∀ n, (natBytesBE n).length ≤ k →
      List.replicate (k - (natBytesBE n).length) 0 ++ natBytesBE n = bytesBE k n := by
  induction k with
  | zero =>
      intro n h
      have h0 : natBytesBE n = [] := List.eq_nil_of_length_eq_zero (by omega)
      simp [h0, bytesBE]
  | succ k ih =>
      intro n h
      by_cases h0 : n = 0
      · subst h0
        rw [natBytesBE]
        simp [bytesBE_zero, List.replicate_succ']
      · rw [natBytesBE, dif_neg h0] at h ⊢
        have hle : (natBytesBE (n / 256)).length ≤ k := by
          simp at h
          omega
        have heq := ih (n / 256) hle
        simp only [List.length_append, List.length_singleton]
        have harith : k + 1 - ((natBytesBE (n / 256)).length + 1) =
            k - (natBytesBE (n / 256)).length := by omega
        rw [harith]
        simp only [bytesBE]
        rw [← heq, ← List.append_assoc]

/-- `toUInt64` agrees with the canonical 8-byte big-endian encoding for
every value representable in 64 bits. -/
theorem toUInt64_eq_bytesBE (n : Nat) (hn : n < 2 ^ 64) :
    toUInt64 n = bytesBE 8 n := by
  rw [toUInt64]
  by_cases hbig : n > MAX_UINT
  · rw [if_pos hbig]
    have hne : ¬(n = 0) := by
      simp [MAX_UINT] at hbig
      omega
    show List.replicate (8 - (bnToArray n).length) 0 ++ bnToArray n = bytesBE 8 n
    rw [bnToArray, if_neg hne]
    refine replicate_natBytesBE_eq_bytesBE 8 n (natBytesBE_length_le 8 n ?_)
    calc n < 2 ^ 64 := hn
      _ = 256 ^ 8 := by norm_num
  · rw [if_neg hbig]
    have hle : n ≤ MAX_UINT := by omega
    rw [MAX_UINT] at hle
    simp only [toUInt32, bytesBE, Nat.zero_div, Nat.zero_mod, Nat.div_div_eq_div_mul,
      List.cons_append, List.nil_append, List.cons.injEq, and_true]
    norm_num
    omega

/-- The 64-bit encoder always yields exactly 8 bytes for 64-bit values. -/
theorem toUInt64_length (n : Nat) (hn : n < 2 ^ 64) :
    (toUInt64 n).length = 8 := by
  rw [toUInt64_eq_bytesBE n hn, bytesBE_length]

/-- **C6.** For every `n` representable in 64 bits, `toUInt64 n` is the
8-byte big-endian representation of `n` (via the arbitrary-precision path
when `n > 2^32 - 1`); and with `opts.left` absent the announce request
carries eight `0xFF` bytes in the `left` field (bytes 64–71 of the
message). -/
theorem toUInt64_bigendian :
    (∀ n : Nat, n < 2 ^ 64 → toUInt64 n = bytesBE 8 n) ∧
    (∀ st : St, ∀ connId txn : List Nat, st.opts.left = Option.none →
      connId.length = 8 → txn.length = 4 →
      st.clientInfoHashBuf.length = 20 → st.clientPeerIdBuf.length = 20 →
      st.opts.downloaded < 2 ^ 64 →
      ((announceMessage st connId txn).drop 64).take 8 = List.replicate 8 255) := by
  constructor
  · exact toUInt64_eq_bytesBE
  · intro st connId txn hleft h8 h4 h20a h20b hdl
    rw [announceMessage, hleft]
    have hassoc :
        connId ++ toUInt32 ACTIONS_ANNOUNCE ++ txn ++
          st.clientInfoHashBuf ++ st.clientPeerIdBuf ++
          toUInt64 st.opts.downloaded ++ List.replicate 8 255 ++
          toUInt64 st.opts.uploaded ++ toUInt32 (eventCode st.opts.event) ++
          toUInt32 0 ++ toUInt32 0 ++ toUInt32 st.opts.numwant ++
          toUInt16 st.clientPort =
        (connId ++ toUInt32 ACTIONS_ANNOUNCE ++ txn ++
          st.clientInfoHashBuf ++ st.clientPeerIdBuf ++
          toUInt64 st.opts.downloaded) ++
        (List.replicate 8 255 ++
          (toUInt64 st.opts.uploaded ++ toUInt32 (eventCode st.opts.event) ++
            toUInt32 0 ++ toUInt32 0 ++ toUInt32 st.opts.numwant ++
            toUInt16 st.clientPort)) := by
      simp [List.append_assoc]
    rw [hassoc]
    rw [List.drop_left' (by
      simp [toUInt32, h8, h4, h20a, h20b, toUInt64_length st.opts.downloaded hdl])]
    rw [List.take_left' (by simp)]

/-- Witness for C6: `toUInt64` on a value above `2^32` and the `left`
field of a concrete announce request with `left` absent. -/
theorem toUInt64_bigendian_witness :
    toUInt64 5000000000 = bytesBE 8 5000000000 ∧
    ((announceMessage demoSt [8, 7, 6, 5, 4, 3, 2, 1] [5, 6, 7, 8]).drop 64).take 8 =
      List.replicate 8 255 :=
  ⟨toUInt64_bigendian.1 5000000000 (by norm_num),
   toUInt64_bigendian.2 demoSt [8, 7, 6, 5, 4, 3, 2, 1] [5, 6, 7, 8]
     rfl rfl rfl (by decide) (by decide) (by decide)⟩

/-! ### Helper lemmas about the session lifecycle (used by C8) -/

theorem sessionRun_append (s : Session) (l1 l2 : List SEvent) :
    sessionRun s (l1 ++ l2) = sessionRun (sessionRun s l1) l2 := by
  induction l1 generalizing s with
  | nil => rfl
  | cons e es ih =>
      show sessionRun (sessionStep s e) (es ++ l2) = _
      rw [ih]
      rfl

theorem sessionStep_completed (s : Session) (e : SEvent)
    (ha : s.active = 0) (hg : s.graceArmed = false) : sessionStep s e = s := by
  cases e <;> simp [sessionStep, ha, hg]

theorem sessionRun_completed (s : Session) (tr : List SEvent)
    (ha : s.active = 0) (hg : s.graceArmed = false) : sessionRun s tr = s := by
  induction tr with
  | nil => rfl
  | cons e es ih =>
      show sessionRun (sessionStep s e) es = s
      rw [sessionStep_completed s e ha hg]
      exact ih

/-- The invariant that holds from the moment `destroy` returns with
pending requests until forever: either completion has not been signalled
(`cbCalls` unchanged, watcher and grace timer armed, requests pending) or
it has been signalled exactly once (`cbCalls` extended by one `cb(null)`,
watcher and timer disarmed, no pending request); transports closed plus
pending requests is constant. -/
def DestroyInv (b : List (Option String)) (t : Nat) (x : Session) : Prop :=
  x.destroyed = true ∧ x.closed + x.active = t ∧
  ((x.cbCalls = b ∧ x.watcher = true ∧ x.graceArmed = true ∧ 0 < x.active) ∨
   (x.cbCalls = b ++ [Option.none] ∧ x.watcher = false ∧ x.graceArmed = false ∧
     x.active = 0))

theorem sessionStep_inv (b : List (Option String)) (t : Nat) (x : Session)
    (h : DestroyInv b t x) (e : SEvent) : DestroyInv b t (sessionStep x e) := by
  obtain ⟨hd, hsum, hcase⟩ := h
  cases e with
  | reqDone =>
      rcases hcase with ⟨hcb, hw, hg, hpos⟩ | ⟨hcb, hw, hg, hact⟩
      · have hne : ¬(x.active = 0) := by omega
        by_cases h1 : x.active - 1 = 0
        · refine ⟨?_, ?_, Or.inr ?_⟩ <;>
            simp [sessionStep, hne, destroyCleanup, hw, h1, hcb, hd] <;> omega
        · refine ⟨?_, ?_, Or.inl ?_⟩ <;>
            simp [sessionStep, hne, destroyCleanup, hw, h1, hcb, hd, hg] <;> omega
      · refine ⟨?_, ?_, Or.inr ?_⟩ <;>
          simp [sessionStep, hact, hcb, hw, hg, hd] <;> omega
  | grace =>
      rcases hcase with ⟨hcb, hw, hg, hpos⟩ | ⟨hcb, hw, hg, hact⟩
      · refine ⟨?_, ?_, Or.inr ?_⟩ <;>
          simp [sessionStep, hg, destroyCleanup, hcb, hd] <;> omega
      · refine ⟨?_, ?_, Or.inr ?_⟩ <;>
          simp [sessionStep, hg, hcb, hw, hact, hd] <;> omega

theorem sessionRun_inv (b : List (Option String)) (t : Nat) :
    ∀ (x : Session), DestroyInv b t x →
      ∀ tr : List SEvent, DestroyInv b t (sessionRun x tr) := by
  intro x hx tr
  induction tr generalizing x with
  | nil => exact hx
  | cons e es ih => exact ih (sessionStep x e) (sessionStep_inv b t x hx e)

theorem sessionStep_grace_completes (b : List (Option String)) (t : Nat)
    (x : Session) (h : DestroyInv b t x) :
    (sessionStep x SEvent.grace).cbCalls = b ++ [Option.none] ∧
    (sessionStep x SEvent.grace).active = 0 ∧
    (sessionStep x SEvent.grace).graceArmed = false := by
  obtain ⟨hd, hsum, hcase⟩ := h
  rcases hcase with ⟨hcb, hw, hg, hpos⟩ | ⟨hcb, hw, hg, hact⟩
  · simp [sessionStep, hg, destroyCleanup, hcb]
  · simp [sessionStep, hg, hcb, hact]

/-- **C8.** `destroy` marks the session destroyed and cancels the
periodic timer; with no active requests the completion callback runs
synchronously with no error; otherwise completion is signalled exactly
once — when the active set first becomes empty or when the grace timer
fires, whichever happens first — and only after every remaining request's
transport has been closed. -/
theorem destroy_completion (s : Session) (hds : s.destroyed = false) :
    (destroy s).destroyed = true ∧ (destroy s).intervalArmed = false ∧
    (s.active = 0 →
      destroy s = { s with
        destroyed := true, intervalArmed := false,
        graceArmed := false, watcher := false,
        cbCalls := s.cbCalls ++ [Option.none] }) ∧
    (0 < s.active →
      (destroy s).cbCalls = s.cbCalls ∧
      ∀ tr : List SEvent,
        (sessionRun (destroy s) tr).cbCalls.length ≤ s.cbCalls.length + 1 ∧
        ((sessionRun (destroy s) tr).cbCalls ≠ s.cbCalls →
          (sessionRun (destroy s) tr).cbCalls = s.cbCalls ++ [Option.none] ∧
          (sessionRun (destroy s) tr).active = 0 ∧
          (sessionRun (destroy s) tr).closed = s.closed + s.active) ∧
        ((SEvent.grace ∈ tr ∨ (sessionRun (destroy s) tr).active = 0) →
          (sessionRun (destroy s) tr).cbCalls = s.cbCalls ++ [Option.none])) := by
  by_cases h0 : s.active = 0
  · have hd : destroy s = { s with
        destroyed := true, intervalArmed := false,
        graceArmed := false, watcher := false,
        cbCalls := s.cbCalls ++ [Option.none] } := by
      rw [destroy, if_neg (by simp [hds])]
      simp [h0, destroyCleanup]
    refine ⟨by rw [hd], by rw [hd], fun _ => hd, fun hpos => absurd h0 (by omega)⟩
  · have hd : destroy s = { s with
        destroyed := true, intervalArmed := false,
        graceArmed := true, watcher := true } := by
      rw [destroy, if_neg (by simp [hds])]
      simp [h0]
    have hinv : DestroyInv s.cbCalls (s.closed + s.active) (destroy s) := by
      rw [hd]
      exact ⟨rfl, rfl, Or.inl ⟨rfl, rfl, rfl, Nat.pos_of_ne_zero h0⟩⟩
    refine ⟨by rw [hd], by rw [hd], fun ha => absurd ha h0, fun _ => ⟨by rw [hd], ?_⟩⟩
    intro tr
    have hfin := sessionRun_inv s.cbCalls (s.closed + s.active) (destroy s) hinv tr
    obtain ⟨hfd, hfsum, hfcase⟩ := hfin
    refine ⟨?_, ?_, ?_⟩
    · rcases hfcase with ⟨hcb, _, _, _⟩ | ⟨hcb, _, _, _⟩ <;> simp [hcb]
    · intro hne
      rcases hfcase with ⟨hcb, _, _, _⟩ | ⟨hcb, _, _, hact⟩
      · exact absurd hcb hne
      · exact ⟨hcb, hact, by omega⟩
    · intro hor
      rcases hor with hmem | hact
      · obtain ⟨l1, l2, rfl⟩ := List.append_of_mem hmem
        rw [sessionRun_append]
        have hy := sessionRun_inv s.cbCalls (s.closed + s.active) (destroy s) hinv l1
        obtain ⟨hcb, hact, hg⟩ :=
          sessionStep_grace_completes s.cbCalls (s.closed + s.active) _ hy
        show (sessionRun (sessionStep (sessionRun (destroy s) l1) SEvent.grace) l2).cbCalls =
          s.cbCalls ++ [Option.none]
        rw [sessionRun_completed _ l2 hact hg]
        exact hcb
      · rcases hfcase with ⟨_, _, _, hpos⟩ | ⟨hcb, _, _, _⟩
        · omega
        · exact hcb

/-- A live session with two pending requests. -/
def demoSession : Session :=
  { destroyed := false, active := 2, intervalArmed := true, graceArmed := false,
    watcher := false, closed := 0, cbCalls := [] }

/-- Witness for C8: destroying a session with no pending requests
completes synchronously; destroying one with two pending requests
completes once the grace timer fires after one request finished. -/
theorem destroy_completion_witness :
    destroy { demoSession with active := 0 } =
      { { demoSession with active := 0 } with
        destroyed := true, intervalArmed := false,
        graceArmed := false, watcher := false,
        cbCalls := ({ demoSession with active := 0 } : Session).cbCalls ++
          [Option.none] } ∧
    (sessionRun (destroy demoSession) [SEvent.reqDone, SEvent.grace]).cbCalls =
      demoSession.cbCalls ++ [Option.none] :=
  ⟨(destroy_completion { demoSession with active := 0 } rfl).2.2.1 rfl,
   (((destroy_completion demoSession rfl).2.2.2 (by decide)).2
      [SEvent.reqDone, SEvent.grace]).2.2 (Or.inl (by decide))⟩

end UdpTracker
